import Mathlib

/-!
Shallow embedding of the vgo2discord capture pipeline (src/main.go).

The program captures audio frames (960 samples × 2 channels of signed 16-bit
values), classifies each frame, announces speaking state, encodes non-quiet
frames with Opus and sends them over a Discord voice connection.

Samples are modelled as `Int` (the Go code holds `int16` values; only order
comparisons against 1 and -1 are performed, which agree between the two).
The capture goroutine's loop body in `Audio.Open` is modelled as a recursive
function over a trace of read results, producing the list of observable
events (error reports, speaking announcements, encode calls, send calls) in
program order together with the loop's final status.
-/

namespace Vgo2discord

/-- Bytes of one encoded Opus frame (`[]byte` in Go). -/
abbrev Opus := List Nat

/-- The inline classification loop in `Audio.Open`:
`speaking := true; for _, value := range in { if value > 1 || value < -1 { speaking = false; break } }`.
Returns the value of the Go variable `speaking` for the frame. -/
def frameSpeaking : List Int → Bool
  | [] => true
  | value :: rest => if 1 < value ∨ value < -1 then false else frameSpeaking rest

/-- The frame label used by the spec: `Silence` is the branch that encodes and
sends (the code's `!speaking`), `Sound` is the skip branch. `classifySilence`
is `true` exactly when the spec would label the frame `Silence`. -/
def classifySilence (frame : List Int) : Bool := !frameSpeaking frame

/-- The classifier as the claim words it: the frame is `Silence` iff every
sample's magnitude exceeds the full-scale bound of the signed 16-bit sample
representation (32767). -/
def classifySilenceClaim (frame : List Int) : Bool :=
  frame.all fun v => decide (32767 < v.natAbs)

/-- Result of one `stream.Read()` call in the capture loop. -/
inductive ReadResult
  | frame (samples : List Int)
  | overflow
  | fatal
deriving DecidableEq, Repr

/-- Errors the loop reports to `errCh`. -/
inductive PipelineError
  | readOverflow
  | readFatal
  | encodeFail
deriving DecidableEq, Repr

/-- Observable actions of the capture loop, in program order. -/
inductive Event
  | report (e : PipelineError)
  | setSpeaking (b : Bool)
  | encode (frame : List Int)
  | sendVoice (frame : List Int)
deriving DecidableEq, Repr

/-- Status of the capture goroutine after consuming the trace:
`streaming speaked` means the loop is still running (with the current value of
the `speaked` flag) and would attempt the next `stream.Read()`;
`stopped` means the goroutine returned. -/
inductive Outcome
  | streaming (speaked : Bool)
  | stopped
deriving DecidableEq, Repr

/-- The `for` loop of the capture goroutine in `Audio.Open`, iterated over a
trace of read results. `encodeOk s` models whether `opusEncoder.Encode` on
frame `s` succeeds. Mirrors the Go control flow:
read error → report, continue on `portaudio.InputOverflowed`, else return;
`speaking` frame → announce `Speaking(false)` once per quiet run, skip;
other frames → flip `speaked` back, encode (fatal on error), send. -/
def run (encodeOk : List Int → Bool) : Bool → List ReadResult → List Event × Outcome
  | speaked, [] => ([], .streaming speaked)
  | _speaked, .fatal :: _rest => ([.report .readFatal], .stopped)
  | speaked, .overflow :: rest =>
      let r := run encodeOk speaked rest
      (.report .readOverflow :: r.1, r.2)
  | speaked, .frame s :: rest =>
      if frameSpeaking s then
        if speaked then
          let r := run encodeOk false rest
          (.setSpeaking false :: r.1, r.2)
        else
          run encodeOk speaked rest
      else
        if encodeOk s then
          let r := run encodeOk true rest
          (.encode s :: .sendVoice s :: r.1, r.2)
        else
          ([.encode s, .report .encodeFail], .stopped)

/-- The whole capture goroutine: `speaked` starts `true`. -/
def pipeline (encodeOk : List Int → Bool) (inputs : List ReadResult) :
    List Event × Outcome :=
  run encodeOk true inputs

/-- The `*discordgo.VoiceConnection` fields the program reads:
`Ready`, the `OpusSend` channel (`none` models a nil channel, `some q` a
usable channel whose queued frames are `q`), and a log of `Speaking`
announcements made through it. -/
structure VoiceConnection where
  ready : Bool
  opusSend : Option (List Opus)
  announced : List Bool
deriving DecidableEq, Repr

/-- The `Discord` struct: `voice` is `nil` before `JoinVoiceChannel`. -/
structure Discord where
  voice : Option VoiceConnection
deriving DecidableEq, Repr

/-- `Discord.SendVoice` from src/main.go: returns `false` when `voice` is nil,
not `Ready`, or `OpusSend` is nil; otherwise performs `voice.OpusSend <- opus`
(modelled as enqueueing) and returns `true`. Result is the updated state and
the returned Bool. -/
def Discord.SendVoice (discord : Discord) (opus : Opus) : Discord × Bool :=
  match discord.voice with
  | none => (discord, false)
  | some voice =>
    if voice.ready = false then (discord, false)
    else
      match voice.opusSend with
      | none => (discord, false)
      | some ch =>
          (⟨some { voice with opusSend := some (ch ++ [opus]) }⟩, true)

/-- `Discord.Speaking` from src/main.go: returns `false` when `voice` is nil or
not `Ready`; otherwise calls `voice.Speaking(speaking)` (modelled as appending
to the announcement log) and returns `true`. Note: unlike `SendVoice` it does
not test `OpusSend`. -/
def Discord.Speaking (discord : Discord) (speaking : Bool) : Discord × Bool :=
  match discord.voice with
  | none => (discord, false)
  | some voice =>
    if voice.ready = false then (discord, false)
    else (⟨some { voice with announced := voice.announced ++ [speaking] }⟩, true)

/-- Availability precondition under which `SendVoice` actually sends. -/
def sendAvailable (discord : Discord) : Prop :=
  ∃ voice ch, discord.voice = some voice ∧ voice.ready = true ∧ voice.opusSend = some ch

instance (discord : Discord) : Decidable (sendAvailable discord) := by
  unfold sendAvailable
  cases discord.voice with
  | none => exact .isFalse (by rintro ⟨v, c, h, _⟩; cases h)
  | some v =>
    cases hc : v.opusSend with
    | none =>
      exact .isFalse (by rintro ⟨w, c, hw, _, hcw⟩; cases hw; rw [hc] at hcw; cases hcw)
    | some ch =>
      cases hr : v.ready with
      | false =>
        exact .isFalse (by rintro ⟨w, c, hw, hrw, _⟩; cases hw; rw [hr] at hrw; cases hrw)
      | true => exact .isTrue ⟨v, ch, rfl, hr, hc⟩

/-- Availability precondition under which `Speaking` announces. -/
def speakAvailable (discord : Discord) : Prop :=
  ∃ voice, discord.voice = some voice ∧ voice.ready = true

/-! ### Helper lemmas about the classifier -/

/-- The classification loop leaves `speaking` true exactly when every sample
lies within `[-1, 1]`. -/
theorem frameSpeaking_eq_true_iff (l : List Int) :
    frameSpeaking l = true ↔ ∀ v ∈ l, v ≤ 1 ∧ -1 ≤ v := by
  induction l with
  | nil => simp [frameSpeaking]
  | cons v rest ih =>
    by_cases h : 1 < v ∨ v < -1
    · simp only [frameSpeaking, if_pos h]
      constructor
      · intro hf; cases hf
      · intro hall
        rcases hall v (List.mem_cons_self v rest) with ⟨h1, h2⟩
        rcases h with h | h
        · exact absurd h1 (not_le.mpr h)
        · exact absurd h2 (not_le.mpr h)
    · push_neg at h
      have hnot : ¬ (1 < v ∨ v < -1) := by push_neg; exact h
      simp only [frameSpeaking, if_neg hnot]
      rw [ih]
      constructor
      · intro hall w hw
        rcases List.mem_cons.mp hw with rfl | hw
        · exact h
        · exact hall w hw
      · intro hall w hw
        exact hall w (List.mem_cons_of_mem v hw)

/-- Representative quiet frame: one 20ms stereo frame of zero samples. -/
def quietFrame : List Int := List.replicate 1920 0

/-- Representative non-quiet frame: first sample 2, rest zero. -/
def loudFrame : List Int := 2 :: List.replicate 1919 0

/-- Second non-quiet frame, distinguishable from `loudFrame` by its head. -/
def loudFrameB : List Int := 3 :: List.replicate 1919 0

/-- An encoder model in which every frame encodes successfully. -/
def encodeAll : List Int → Bool := fun _ => true

theorem frameSpeaking_quietFrame : frameSpeaking quietFrame = true := by
  rw [frameSpeaking_eq_true_iff]
  intro v hv
  have hv0 : v = 0 := List.eq_of_mem_replicate hv
  subst hv0
  exact ⟨by norm_num, by norm_num⟩

theorem frameSpeaking_loudFrame : frameSpeaking loudFrame = false := rfl

theorem frameSpeaking_loudFrameB : frameSpeaking loudFrameB = false := rfl

/-! ### Helper lemmas: one step of the capture loop -/

theorem run_fatal (encodeOk : List Int → Bool) (speaked : Bool)
    (rest : List ReadResult) :
    run encodeOk speaked (.fatal :: rest) = ([.report .readFatal], .stopped) := rfl

theorem run_overflow (encodeOk : List Int → Bool) (speaked : Bool)
    (rest : List ReadResult) :
    run encodeOk speaked (.overflow :: rest) =
      (Event.report .readOverflow :: (run encodeOk speaked rest).1,
        (run encodeOk speaked rest).2) := rfl

theorem run_cons_quiet_true (encodeOk : List Int → Bool) (s : List Int)
    (rest : List ReadResult) (h : frameSpeaking s = true) :
    run encodeOk true (.frame s :: rest) =
      (Event.setSpeaking false :: (run encodeOk false rest).1,
        (run encodeOk false rest).2) := by
  simp [run, h]

theorem run_cons_quiet_false (encodeOk : List Int → Bool) (s : List Int)
    (rest : List ReadResult) (h : frameSpeaking s = true) :
    run encodeOk false (.frame s :: rest) = run encodeOk false rest := by
  simp [run, h]

theorem run_cons_loud (encodeOk : List Int → Bool) (speaked : Bool) (s : List Int)
    (rest : List ReadResult) (h : frameSpeaking s = false) (he : encodeOk s = true) :
    run encodeOk speaked (.frame s :: rest) =
      (Event.encode s :: Event.sendVoice s :: (run encodeOk true rest).1,
        (run encodeOk true rest).2) := by
  simp [run, h, he]

theorem run_cons_loud_fail (encodeOk : List Int → Bool) (speaked : Bool) (s : List Int)
    (rest : List ReadResult) (h : frameSpeaking s = false) (he : encodeOk s = false) :
    run encodeOk speaked (.frame s :: rest) =
      ([Event.encode s, Event.report .encodeFail], .stopped) := by
  simp [run, h, he]

/-! ### Helper lemmas: runs of quiet / non-quiet frames -/

/-- With the `speaked` flag already lowered, a run of quiet frames produces no
events and leaves the flag lowered. -/
theorem run_quiet_readlist (encodeOk : List Int → Bool) :
    ∀ inputs : List ReadResult,
      (∀ r ∈ inputs, ∃ s, r = ReadResult.frame s ∧ frameSpeaking s = true) →
      run encodeOk false inputs = ([], .streaming false) := by
  intro inputs
  induction inputs with
  | nil => intro _; rfl
  | cons r t ih =>
    intro h
    obtain ⟨s, rfl, hs⟩ := h r (List.mem_cons_self _ _)
    rw [run_cons_quiet_false _ _ _ hs]
    exact ih fun r hr => h r (List.mem_cons_of_mem _ hr)

/-- A quiet prelude with the flag lowered is skipped without events. -/
theorem run_quiet_prelude (encodeOk : List Int → Bool) :
    ∀ (qs : List (List Int)) (rest : List ReadResult),
      (∀ s ∈ qs, frameSpeaking s = true) →
      run encodeOk false (qs.map ReadResult.frame ++ rest) =
        run encodeOk false rest := by
  intro qs
  induction qs with
  | nil => intro rest _; rfl
  | cons q qs ih =>
    intro rest hq
    rw [List.map_cons, List.cons_append,
      run_cons_quiet_false _ _ _ (hq q (List.mem_cons_self _ _)),
      ih rest fun s hs => hq s (List.mem_cons_of_mem _ hs)]

/-- A run of non-quiet, encodable frames is encoded and sent frame by frame in
input order, leaving the `speaked` flag raised (unless the run is empty). -/
theorem run_loud_list (encodeOk : List Int → Bool) :
    ∀ (ls : List (List Int)) (speaked : Bool),
      (∀ s ∈ ls, frameSpeaking s = false) →
      (∀ s ∈ ls, encodeOk s = true) →
      run encodeOk speaked (ls.map ReadResult.frame) =
        ((ls.map fun s => [Event.encode s, Event.sendVoice s]).flatten,
          .streaming (if ls.isEmpty then speaked else true)) := by
  intro ls
  induction ls with
  | nil => intro speaked _ _; rfl
  | cons l ls ih =>
    intro speaked hl he
    rw [List.map_cons,
      run_cons_loud _ _ _ _ (hl l (List.mem_cons_self _ _)) (he l (List.mem_cons_self _ _)),
      ih true (fun s hs => hl s (List.mem_cons_of_mem _ hs))
        (fun s hs => he s (List.mem_cons_of_mem _ hs))]
    simp [ite_self]

/-! ### Helper lemmas: speaking announcements in arbitrary runs -/

/-- Every `setSpeaking` event the loop ever emits carries `false`. -/
theorem run_setSpeaking_false (encodeOk : List Int → Bool) :
    ∀ (inputs : List ReadResult) (speaked : Bool) (b : Bool),
      Event.setSpeaking b ∈ (run encodeOk speaked inputs).1 → b = false := by
  intro inputs
  induction inputs with
  | nil => intro speaked b h; simp [run] at h
  | cons r rest ih =>
    intro speaked b h
    cases r with
    | fatal =>
      rw [run_fatal] at h
      simp at h
    | overflow =>
      rw [run_overflow] at h
      rcases List.mem_cons.mp h with heq | h
      · exact Event.noConfusion heq
      · exact ih speaked b h
    | frame s =>
      cases hfs : frameSpeaking s with
      | true =>
        cases speaked with
        | true =>
          rw [run_cons_quiet_true _ _ _ hfs] at h
          rcases List.mem_cons.mp h with heq | h
          · injection heq with hb
          · exact ih false b h
        | false =>
          rw [run_cons_quiet_false _ _ _ hfs] at h
          exact ih false b h
      | false =>
        cases hek : encodeOk s with
        | true =>
          rw [run_cons_loud _ _ _ _ hfs hek] at h
          rcases List.mem_cons.mp h with heq | h
          · exact Event.noConfusion heq
          · rcases List.mem_cons.mp h with heq | h
            · exact Event.noConfusion heq
            · exact ih true b h
        | false =>
          rw [run_cons_loud_fail _ _ _ _ hfs hek] at h
          simp at h

/-- A run whose frames are never quiet emits no `setSpeaking` event at all. -/
theorem run_no_setSpeaking (encodeOk : List Int → Bool) :
    ∀ (inputs : List ReadResult) (speaked : Bool),
      (∀ s, ReadResult.frame s ∈ inputs → frameSpeaking s = false) →
      ∀ b, Event.setSpeaking b ∉ (run encodeOk speaked inputs).1 := by
  intro inputs
  induction inputs with
  | nil => intro speaked _ b h; simp [run] at h
  | cons r rest ih =>
    intro speaked hq b h
    cases r with
    | fatal =>
      rw [run_fatal] at h
      simp at h
    | overflow =>
      rw [run_overflow] at h
      rcases List.mem_cons.mp h with heq | h
      · exact Event.noConfusion heq
      · exact ih speaked (fun s hs => hq s (List.mem_cons_of_mem _ hs)) b h
    | frame s =>
      have hfs : frameSpeaking s = false := hq s (List.mem_cons_self _ _)
      cases hek : encodeOk s with
      | true =>
        rw [run_cons_loud _ _ _ _ hfs hek] at h
        rcases List.mem_cons.mp h with heq | h
        · exact Event.noConfusion heq
        · rcases List.mem_cons.mp h with heq | h
          · exact Event.noConfusion heq
          · exact ih true (fun s hs => hq s (List.mem_cons_of_mem _ hs)) b h
      | false =>
        rw [run_cons_loud_fail _ _ _ _ hfs hek] at h
        simp at h

/-! ### Claim theorems -/

/-- Claim C1, counterexample: the classifier is not the claimed full-scale
boundary check. On the frame whose first sample is 2 and whose remaining 1919
samples are 0, the code classifies the frame as Silence (it is encoded and
sent), while under the claimed condition — every sample's magnitude exceeds
the full-scale bound 32767 of the signed 16-bit representation — the frame
would be Sound. -/
theorem classify_claim_counterexample :
    classifySilence loudFrame = true ∧ classifySilenceClaim loudFrame = false :=
  ⟨rfl, rfl⟩

/-- Claim C1 (amended): `Classify` labels a frame Silence if and only if at
least one sample's value is greater than 1 or less than -1 (magnitude at
least 2); equivalently, the frame is Sound exactly when every sample lies in
`{-1, 0, 1}`. The code's check is a per-sample ±1 threshold with existential
quantification, not a universally quantified full-scale boundary check. -/
theorem classifySilence_iff (frame : List Int) :
    classifySilence frame = true ↔ ∃ v ∈ frame, 1 < v ∨ v < -1 := by
  unfold classifySilence
  cases h : frameSpeaking frame with
  | false =>
    simp only [Bool.not_false, true_iff]
    by_contra hno
    push_neg at hno
    rw [← frameSpeaking_eq_true_iff] at hno
    rw [h] at hno
    cases hno
  | true =>
    simp only [Bool.not_true, Bool.false_eq_true, false_iff]
    rintro ⟨v, hv, hvp⟩
    rcases (frameSpeaking_eq_true_iff frame).mp h v hv with ⟨h1, h2⟩
    rcases hvp with hlt | hlt
    · exact absurd h1 (not_le.mpr hlt)
    · exact absurd h2 (not_le.mpr hlt)

/-- Claim C4: in every iteration, a read that fails with the distinguished
overflow error is reported to the error sink and the loop continues with the
remaining trace in the same state (the next read is still attempted and the
frame's classify/encode/send steps are skipped); a read that fails with any
other error is reported and the loop exits to `stopped`. -/
theorem read_error_handling (encodeOk : List Int → Bool) (speaked : Bool)
    (rest : List ReadResult) :
    run encodeOk speaked (.overflow :: rest) =
      (Event.report .readOverflow :: (run encodeOk speaked rest).1,
        (run encodeOk speaked rest).2)
  ∧ run encodeOk speaked (.fatal :: rest) =
      ([Event.report .readFatal], .stopped) :=
  ⟨rfl, rfl⟩

/-- Claim C9: for every frame, the loop takes the skip-encode branch exactly
when every sample lies in `{-1, 0, 1}`; a frame with at least one sample of
magnitude 2 or more is passed to the encoder and, when encoding succeeds, on
to `SendVoice`. -/
theorem frame_branch (encodeOk : List Int → Bool) (speaked : Bool) (s : List Int)
    (rest : List ReadResult) :
    ((∀ v ∈ s, v ≤ 1 ∧ -1 ≤ v) →
      run encodeOk speaked (.frame s :: rest) =
        if speaked then
          (Event.setSpeaking false :: (run encodeOk false rest).1,
            (run encodeOk false rest).2)
        else run encodeOk speaked rest)
  ∧ ((∃ v ∈ s, 1 < v ∨ v < -1) →
      run encodeOk speaked (.frame s :: rest) =
        if encodeOk s then
          (Event.encode s :: Event.sendVoice s :: (run encodeOk true rest).1,
            (run encodeOk true rest).2)
        else ([Event.encode s, Event.report .encodeFail], .stopped)) := by
  constructor
  · intro hall
    have hfs : frameSpeaking s = true := (frameSpeaking_eq_true_iff s).mpr hall
    cases speaked with
    | true => rw [run_cons_quiet_true _ _ _ hfs, if_pos rfl]
    | false =>
      rw [run_cons_quiet_false _ _ _ hfs]
      simp
  · intro hex
    have hfs : frameSpeaking s = false := by
      cases hb : frameSpeaking s with
      | false => rfl
      | true =>
        rcases hex with ⟨v, hv, hvp⟩
        rcases (frameSpeaking_eq_true_iff s).mp hb v hv with ⟨h1, h2⟩
        rcases hvp with hlt | hlt
        · exact absurd h1 (not_le.mpr hlt)
        · exact absurd h2 (not_le.mpr hlt)
    cases hek : encodeOk s with
    | true =>
      rw [run_cons_loud _ _ _ _ hfs hek]
      simp
    | false =>
      rw [run_cons_loud_fail _ _ _ _ hfs hek]
      simp

/-- Witness for C9 at concrete inputs: the all-quiet frame `[0]` takes the
skip branch and announces, the frame `[2]` is encoded and sent. -/
theorem frame_branch_witness :
    run encodeAll true [ReadResult.frame [0]] =
      ([Event.setSpeaking false], .streaming false)
  ∧ run encodeAll true [ReadResult.frame [2]] =
      ([Event.encode [2], Event.sendVoice [2]], .streaming true) := by
  constructor
  · have h := (frame_branch encodeAll true [0] []).1 (by decide)
    simpa using h
  · have h := (frame_branch encodeAll true [2] []).2 ⟨2, by decide, by decide⟩
    simpa [encodeAll] using h

/-- Claim C3: on a trace of 10 frames all classified Sound (all-quiet), the
pipeline issues exactly one `SetSpeaking(false)` — as the sole event, emitted
while processing the first frame — and never calls the encoder or
`SendVoice`; the loop is still streaming with the flag lowered. -/
theorem scenario_all_sound (encodeOk : List Int → Bool) (inputs : List ReadResult)
    (h10 : inputs.length = 10)
    (hframes : ∀ r ∈ inputs, ∃ s, r = ReadResult.frame s ∧ frameSpeaking s = true) :
    pipeline encodeOk inputs = ([Event.setSpeaking false], .streaming false) := by
  obtain ⟨r1, rest, rfl⟩ : ∃ a t, inputs = a :: t := by
    cases inputs with
    | nil => simp at h10
    | cons a t => exact ⟨a, t, rfl⟩
  obtain ⟨s1, hr1, hs1⟩ := hframes r1 (List.mem_cons_self _ _)
  subst hr1
  rw [pipeline, run_cons_quiet_true _ _ _ hs1,
    run_quiet_readlist encodeOk rest fun r hr => hframes r (List.mem_cons_of_mem _ hr)]

/-- Witness for C3: ten copies of the all-zero frame. -/
theorem scenario_all_sound_witness :
    pipeline encodeAll (List.replicate 10 (ReadResult.frame quietFrame)) =
      ([Event.setSpeaking false], .streaming false) :=
  scenario_all_sound encodeAll _ (by simp)
    fun r hr =>
      ⟨quietFrame, List.eq_of_mem_replicate hr, frameSpeaking_quietFrame⟩

/-- Claim C2: on a trace of 5 Sound (all-quiet) frames followed by 5 Silence
(non-quiet, encodable) frames, exactly one `SetSpeaking(false)` is issued,
during frame 1 (after the 5-frame prelude alone the events are exactly that
one announcement and the flag is still lowered); the flag flips on frame 6
with no announcement on that edge (the loop ends raised, and no `setSpeaking`
event follows the first); and each of frames 6–10 is encoded and then sent,
in input order. -/
theorem scenario_sound_then_silence (encodeOk : List Int → Bool)
    (qs ls : List (List Int)) (hq5 : qs.length = 5) (hl5 : ls.length = 5)
    (hq : ∀ s ∈ qs, frameSpeaking s = true)
    (hl : ∀ s ∈ ls, frameSpeaking s = false)
    (he : ∀ s ∈ ls, encodeOk s = true) :
    pipeline encodeOk (qs.map ReadResult.frame ++ ls.map ReadResult.frame) =
      (Event.setSpeaking false ::
          (ls.map fun s => [Event.encode s, Event.sendVoice s]).flatten,
        .streaming true)
  ∧ pipeline encodeOk (qs.map ReadResult.frame) =
      ([Event.setSpeaking false], .streaming false) := by
  obtain ⟨q1, qs', rfl⟩ : ∃ a t, qs = a :: t := by
    cases qs with
    | nil => simp at hq5
    | cons a t => exact ⟨a, t, rfl⟩
  have hq1 : frameSpeaking q1 = true := hq q1 (List.mem_cons_self _ _)
  have hq' : ∀ s ∈ qs', frameSpeaking s = true :=
    fun s hs => hq s (List.mem_cons_of_mem _ hs)
  have hlne : ls.isEmpty = false := by
    cases ls with
    | nil => simp at hl5
    | cons a t => rfl
  constructor
  · rw [pipeline, List.map_cons, List.cons_append, run_cons_quiet_true _ _ _ hq1,
      run_quiet_prelude encodeOk qs' _ hq', run_loud_list encodeOk ls false hl he,
      hlne]
    rfl
  · rw [pipeline, List.map_cons, run_cons_quiet_true _ _ _ hq1,
      ← List.append_nil (qs'.map ReadResult.frame),
      run_quiet_prelude encodeOk qs' [] hq']
    rfl

/-- Witness for C2: five all-zero frames then five copies of `loudFrame`. -/
theorem scenario_sound_then_silence_witness :
    pipeline encodeAll
        ((List.replicate 5 quietFrame).map ReadResult.frame ++
          (List.replicate 5 loudFrame).map ReadResult.frame) =
      (Event.setSpeaking false ::
          ((List.replicate 5 loudFrame).map
            fun s => [Event.encode s, Event.sendVoice s]).flatten,
        .streaming true)
  ∧ pipeline encodeAll ((List.replicate 5 quietFrame).map ReadResult.frame) =
      ([Event.setSpeaking false], .streaming false) :=
  scenario_sound_then_silence encodeAll (List.replicate 5 quietFrame)
    (List.replicate 5 loudFrame) (by simp) (by simp)
    (fun s hs => by rw [List.eq_of_mem_replicate hs]; exact frameSpeaking_quietFrame)
    (fun s hs => by rw [List.eq_of_mem_replicate hs]; exact frameSpeaking_loudFrame)
    (fun s _ => rfl)

/-- Claim C5: when the encoder fails on frame 4 of a 5-frame trace (frames
1–3 non-quiet and encodable, frame 4 non-quiet with encoding failing), the
error is reported to the sink exactly once, the loop exits to `stopped`, and
the fifth input is never read — the result is the same for every possible
fifth read result; the failing encode is never retried. -/
theorem scenario_encode_fail (encodeOk : List Int → Bool)
    (f1 f2 f3 f4 : List Int) (r5 : ReadResult)
    (h1 : frameSpeaking f1 = false) (he1 : encodeOk f1 = true)
    (h2 : frameSpeaking f2 = false) (he2 : encodeOk f2 = true)
    (h3 : frameSpeaking f3 = false) (he3 : encodeOk f3 = true)
    (h4 : frameSpeaking f4 = false) (he4 : encodeOk f4 = false) :
    pipeline encodeOk
        [.frame f1, .frame f2, .frame f3, .frame f4, r5] =
      ([Event.encode f1, Event.sendVoice f1, Event.encode f2, Event.sendVoice f2,
        Event.encode f3, Event.sendVoice f3, Event.encode f4,
        Event.report .encodeFail], .stopped) := by
  rw [pipeline, run_cons_loud _ _ _ _ h1 he1, run_cons_loud _ _ _ _ h2 he2,
    run_cons_loud _ _ _ _ h3 he3, run_cons_loud_fail _ _ _ _ h4 he4]

/-- Witness for C5: three copies of `loudFrame`, then `loudFrameB` under an
encoder model that only accepts frames with head sample 2, then a fifth
frame that is provably never processed. -/
theorem scenario_encode_fail_witness :
    pipeline (fun s => decide (s.head? = some 2))
        [.frame loudFrame, .frame loudFrame, .frame loudFrame,
          .frame loudFrameB, .frame quietFrame] =
      ([Event.encode loudFrame, Event.sendVoice loudFrame, Event.encode loudFrame,
        Event.sendVoice loudFrame, Event.encode loudFrame, Event.sendVoice loudFrame,
        Event.encode loudFrameB, Event.report .encodeFail], .stopped) :=
  scenario_encode_fail (fun s => decide (s.head? = some 2))
    loudFrame loudFrame loudFrame loudFrameB (.frame quietFrame)
    frameSpeaking_loudFrame rfl frameSpeaking_loudFrame rfl
    frameSpeaking_loudFrame rfl frameSpeaking_loudFrameB rfl

/-- Claim C6: `SendVoice` returns `false` and leaves the session unchanged
whenever there is no voice connection, the connection is not ready, or the
send channel is nil; in every other case it enqueues the frame on the send
channel and returns `true`. -/
theorem sendVoice_contract (discord : Discord) (opus : Opus) :
    (¬ sendAvailable discord → discord.SendVoice opus = (discord, false))
  ∧ (∀ voice ch, discord.voice = some voice → voice.ready = true →
      voice.opusSend = some ch →
      discord.SendVoice opus =
        (⟨some { voice with opusSend := some (ch ++ [opus]) }⟩, true)) := by
  obtain ⟨ov⟩ := discord
  constructor
  · intro hna
    cases ov with
    | none => rfl
    | some voice =>
      obtain ⟨ready, osend, ann⟩ := voice
      cases ready with
      | false => rfl
      | true =>
        cases osend with
        | none => rfl
        | some ch => exact absurd ⟨⟨true, some ch, ann⟩, ch, rfl, rfl, rfl⟩ hna
  · rintro voice ch hv hr hc
    have hov : ov = some voice := hv
    subst hov
    obtain ⟨ready, osend, ann⟩ := voice
    have hr' : ready = true := hr
    subst hr'
    have hc' : osend = some ch := hc
    subst hc'
    rfl

/-- Witness for C6: an unjoined session rejects the frame with no side
effect; a joined, ready session with an empty send channel enqueues it. -/
theorem sendVoice_contract_witness :
    (⟨none⟩ : Discord).SendVoice [7] = (⟨none⟩, false)
  ∧ (⟨some ⟨true, some [], []⟩⟩ : Discord).SendVoice [7] =
      (⟨some ⟨true, some [[7]], []⟩⟩, true) :=
  ⟨(sendVoice_contract ⟨none⟩ [7]).1 (by decide),
    (sendVoice_contract ⟨some ⟨true, some [], []⟩⟩ [7]).2 ⟨true, some [], []⟩ []
      rfl rfl rfl⟩

/-- Claim C7, counterexample: `Speaking` does not share `SendVoice`'s
availability preconditions. On a joined, ready session whose send channel is
nil, `Speaking(true)` attempts the announcement and returns `true` while
`SendVoice` returns `false` in that same state. -/
theorem speaking_precondition_differs :
    ((⟨some ⟨true, none, []⟩⟩ : Discord).Speaking true).2 = true
  ∧ ((⟨some ⟨true, none, []⟩⟩ : Discord).SendVoice [7]).2 = false :=
  ⟨rfl, rfl⟩

/-- Claim C7 (amended): `Speaking` returns `true` — and records the
announcement — if and only if the session has a voice connection that is
ready; unlike `SendVoice` it does not require the send channel to be
non-nil, so its availability precondition is strictly weaker. When
unavailable it returns `false` with no side effect; the returned Bool is
whether the announcement was attempted. -/
theorem speaking_contract (discord : Discord) (b : Bool) :
    ((discord.Speaking b).2 = true ↔ speakAvailable discord)
  ∧ (¬ speakAvailable discord → discord.Speaking b = (discord, false))
  ∧ (∀ voice, discord.voice = some voice → voice.ready = true →
      discord.Speaking b =
        (⟨some { voice with announced := voice.announced ++ [b] }⟩, true)) := by
  obtain ⟨ov⟩ := discord
  refine ⟨?_, ?_, ?_⟩
  · cases ov with
    | none =>
      constructor
      · intro h; cases h
      · rintro ⟨voice, hv, -⟩; cases hv
    | some voice =>
      obtain ⟨ready, osend, ann⟩ := voice
      cases ready with
      | false =>
        constructor
        · intro h; cases h
        · rintro ⟨w, hw, hrw⟩
          cases hw
          cases hrw
      | true => exact ⟨fun _ => ⟨⟨true, osend, ann⟩, rfl, rfl⟩, fun _ => rfl⟩
  · intro hna
    cases ov with
    | none => rfl
    | some voice =>
      obtain ⟨ready, osend, ann⟩ := voice
      cases ready with
      | false => rfl
      | true => exact absurd ⟨⟨true, osend, ann⟩, rfl, rfl⟩ hna
  · rintro voice hv hr
    have hov : ov = some voice := hv
    subst hov
    obtain ⟨ready, osend, ann⟩ := voice
    have hr' : ready = true := hr
    subst hr'
    rfl

/-- Witness for C7 (amended): a ready session with nil send channel attempts
and records the announcement; an unjoined session does nothing. -/
theorem speaking_contract_witness :
    ((⟨some ⟨true, none, []⟩⟩ : Discord).Speaking false).2 = true
  ∧ (⟨none⟩ : Discord).Speaking false = (⟨none⟩, false)
  ∧ (⟨some ⟨true, none, []⟩⟩ : Discord).Speaking false =
      (⟨some ⟨true, none, [false]⟩⟩, true) :=
  ⟨((speaking_contract ⟨some ⟨true, none, []⟩⟩ false).1).mpr
      ⟨⟨true, none, []⟩, rfl, rfl⟩,
    (speaking_contract ⟨none⟩ false).2.1 (by rintro ⟨v, hv, -⟩; cases hv),
    (speaking_contract ⟨some ⟨true, none, []⟩⟩ false).2.2 ⟨true, none, []⟩ rfl rfl⟩

/-- Claim C10: in every run, `SetSpeaking(true)` is never dispatched — every
speaking announcement carries `false`; a run none of whose frames are
all-quiet dispatches no announcement at all; and because the internal flag
starts raised, a run whose first read is an all-quiet frame dispatches the
`SetSpeaking(false)` announcement immediately on that first frame. -/
theorem speaking_announcement_policy (encodeOk : List Int → Bool)
    (inputs : List ReadResult) :
    (∀ b, Event.setSpeaking b ∈ (pipeline encodeOk inputs).1 → b = false)
  ∧ ((∀ s, ReadResult.frame s ∈ inputs → frameSpeaking s = false) →
      ∀ b, Event.setSpeaking b ∉ (pipeline encodeOk inputs).1)
  ∧ (∀ s rest, frameSpeaking s = true →
      ∃ tl, (pipeline encodeOk (ReadResult.frame s :: rest)).1 =
        Event.setSpeaking false :: tl) := by
  refine ⟨fun b h => run_setSpeaking_false encodeOk inputs true b h,
    fun hq b => run_no_setSpeaking encodeOk inputs true hq b,
    fun s rest hfs => ?_⟩
  rw [pipeline, run_cons_quiet_true _ _ _ hfs]
  exact ⟨_, rfl⟩

/-- Witness for C10: a run on one non-quiet frame has no announcement at
all; a run starting with an all-quiet frame announces `false` first. -/
theorem speaking_announcement_policy_witness :
    (∀ b, Event.setSpeaking b ∈ (pipeline encodeAll [ReadResult.frame [2]]).1 →
      b = false)
  ∧ (∀ b, Event.setSpeaking b ∉ (pipeline encodeAll [ReadResult.frame [2]]).1)
  ∧ (∃ tl, (pipeline encodeAll (ReadResult.frame [0] :: [])).1 =
      Event.setSpeaking false :: tl) := by
  refine ⟨(speaking_announcement_policy encodeAll [ReadResult.frame [2]]).1,
    (speaking_announcement_policy encodeAll [ReadResult.frame [2]]).2.1 ?_,
    (speaking_announcement_policy encodeAll []).2.2 [0] [] (by decide)⟩
  intro s hs
  rw [List.mem_singleton] at hs
  injection hs with hs
  subst hs
  decide

end Vgo2discord
